import Mathlib

/-!
Shallow embedding of the AnyVM execution core, translated from
src/src/lib.rs, src/src/invoke.rs, src/src/numerical.rs and src/src/error.rs.

Modelling conventions:
- machine memory is a list of bytes (each a Nat below 256), big-endian for
  every multi-byte value, mirroring the unconditional big-endian layout of
  the source;
- the i64 addresses and pointers of the source are modelled as Int, with
  two's-complement reinterpretation made explicit where the source casts;
- fallible Rust functions returning Result are modelled with Except;
- Rust panics (unwrap on a missing value, indexing a HashMap with a missing
  key, exhausting an iterator) are modelled as Option.none or as a dedicated
  outcome constructor, never as an ordinary error value.
-/

namespace AnyVM

/-- Big-endian byte list (length w) of the low bits of v, as produced by the
Rust to_be_bytes calls in the source. -/
def beBytes : Nat → Nat → List Nat
  | 0, _ => []
  | w + 1, v => beBytes w (v / 256) ++ [v % 256]

/-- Big-endian decoding of a byte list, as from_be_bytes. -/
def beDecode (bs : List Nat) : Nat :=
  bs.foldl (fun a b => a * 256 + b) 0

/-- Overwrite bytes of mem starting at index p with bs. -/
def writeBytes (mem : List Nat) (p : Nat) (bs : List Nat) : List Nat :=
  mem.take p ++ bs ++ mem.drop (p + bs.length)

/-- Reinterpret a w-byte unsigned value as a signed integer
(two's complement), as the source does when it reads a value at type i64. -/
def toSigned (w : Nat) (v : Nat) : Int :=
  if v < 2 ^ (8 * w - 1) then (v : Int) else (v : Int) - 2 ^ (8 * w)

/-- The 64-bit pattern of an integer, as a Rust cast of an i64 to u64. -/
def natOfInt64 (x : Int) : Nat :=
  (x % (2 ^ 64 : Int)).toNat

/-- Association-list lookup, standing in for HashMap::get in the source. -/
def lookupA {κ α : Type} [DecidableEq κ] : List (κ × α) → κ → Option α
  | [], _ => none
  | (k, v) :: rest, s => if k = s then some v else lookupA rest s

/-- CStr::from_bytes_until_nul on a byte list: the bytes strictly before the
first nul byte, or none when no nul byte exists (the error case mapped to
StringProcessingError by the source). -/
def readCStr : List Nat → Option (List Nat)
  | [] => none
  | b :: rest => if b = 0 then some [] else (readCStr rest).map (fun bs => b :: bs)

instance {ε α : Type} [DecidableEq ε] [DecidableEq α] : DecidableEq (Except ε α) := fun a b =>
  match a, b with
  | .error x, .error y =>
    if h : x = y then .isTrue (by rw [h]) else .isFalse (fun hh => h (by cases hh; rfl))
  | .error _, .ok _ => .isFalse (fun hh => by cases hh)
  | .ok _, .error _ => .isFalse (fun hh => by cases hh)
  | .ok x, .ok y =>
    if h : x = y then .isTrue (by rw [h]) else .isFalse (fun hh => h (by cases hh; rfl))

/-- src/src/error.rs MemoryErr. -/
inductive MemoryErr
  | OutOfMemory
  | SegmentationFault
  deriving DecidableEq

/-- src/src/error.rs InvokeErr. UncaughtThrow carries the thrown byte, per
the enum declaration in src/src/error.rs. -/
inductive InvokeErr
  | MemErr (e : MemoryErr)
  | UncaughtThrow (code : Nat)
  | BadInstruction
  | StdabiTestFailure
  | StringProcessingError
  deriving DecidableEq

/-- src/src/error.rs InvokeResult. -/
inductive InvokeResult
  | Ok (v : Int)
  | StdabiTestSuccess
  deriving DecidableEq

/-- The two host callables the source builds inline inside the dock arm of
invoke (the stdabi print and stest functions); host callables are identified
by which closure the source installs, their bodies are outside the dispatch
facts proved here. -/
inductive AbiFn
  | print
  | stest
  deriving DecidableEq

/-- src/src/invoke.rs RabbitTable: a named collection of host callables;
names are kept as ASCII byte lists. -/
structure RabbitTable where
  fns : List (List Nat × AbiFn)
  deriving DecidableEq

/-- src/src/lib.rs Image. The HashMap tables are modelled as association
lists. -/
structure Image where
  function_table : List (String × Int)
  static_table : List (String × Int)
  static_section : List Nat
  text_section : List Nat
  deriving DecidableEq

/-- src/src/lib.rs Machine. The field end of the source is spelled end_
because end is a Lean keyword. The fields rabbit_top, rabbit_fns and
rabbit_objs are used by next_rabbit and by the invoke dispatch in the source
but their declarations are missing from the Machine struct in src/; they are
included here as the code uses them. The ext_data field is never read by any
code a claim cites and is omitted. -/
structure Machine where
  memory : List Nat
  text_start : Int
  stack_start : Int
  end_ : Int
  stack_pointer : Int
  exec_pointer : Int
  errcode : Nat
  sbm : Int × Int
  rabbit_top : Int
  rabbit_fns : List (Int × AbiFn)
  rabbit_objs : List (Int × RabbitTable)
  deriving DecidableEq

/-- Machine::new from src/src/lib.rs: zeroed memory of the given capacity,
end = capacity - 8, all pointers zero, sbm = (0, 0). The initial value of
rabbit_top is modelled from the spec (capacity + 1), since the field
initialisation is missing from the source struct. -/
def Machine.new (capacity : Nat) : Machine where
  memory := List.replicate capacity 0
  text_start := 0
  stack_start := 0
  end_ := (capacity : Int) - 8
  stack_pointer := 0
  exec_pointer := 0
  errcode := 0
  sbm := (0, 0)
  rabbit_top := (capacity : Int) + 1
  rabbit_fns := []
  rabbit_objs := []

/-- Image::lookup from src/src/lib.rs: static_section.len() + table offset,
with unwrap on the table lookup. The none result models the unwrap panic on
a symbol missing from the function table. -/
def Image.lookup (img : Image) (thing : String) : Option Int :=
  (lookupA img.function_table thing).map
    (fun off => (img.static_section.length : Int) + off)

/-- Machine::mount from src/src/lib.rs: copy the static section, then the
text section, byte by byte from the front of memory, and record text_start
and stack_start. The copy loop unwraps head.next(), so when the two sections
together exceed the memory length the function panics: that panic is
modelled as none. No error value is ever produced. -/
def Machine.mount (m : Machine) (image : Image) : Option Machine :=
  if image.static_section.length + image.text_section.length ≤ m.memory.length then
    some { m with
      memory := writeBytes m.memory 0 (image.static_section ++ image.text_section)
      text_start := (image.static_section.length : Int)
      stack_start := (image.static_section.length : Int) + (image.text_section.length : Int) }
  else
    none

/-- Machine::stackaddr from src/src/lib.rs: a negative address is offset by
the stack pointer; the result must lie in the interval from 0 up to end. -/
def Machine.stackaddr (m : Machine) (addr : Int) : Except MemoryErr Nat :=
  let a := if addr < 0 then addr + m.stack_pointer else addr
  if a < 0 ∨ m.end_ ≤ a then .error .SegmentationFault else .ok a.toNat

/-- Machine::get_at_as from src/src/lib.rs at a width of w bytes: translate
the address, then (memory_as_at) check the index against the memory length
and read the big-endian value. -/
def Machine.get_at_as (m : Machine) (w : Nat) (pos : Int) : Except MemoryErr Nat :=
  match m.stackaddr pos with
  | .error e => .error e
  | .ok p =>
    if p < m.memory.length then
      .ok (beDecode ((m.memory.drop p).take w))
    else
      .error .SegmentationFault

/-- Machine::setmem from src/src/lib.rs at a width of w bytes: translate the
address, check the index against the memory length, write big-endian. -/
def Machine.setmem (m : Machine) (w : Nat) (pos : Int) (v : Nat) : Except MemoryErr Machine :=
  match m.stackaddr pos with
  | .error e => .error e
  | .ok p =>
    if p < m.memory.length then
      .ok { m with memory := writeBytes m.memory p (beBytes w v) }
    else
      .error .SegmentationFault

/-- Machine::pop_arg from src/src/lib.rs: read a w-byte value with
get_at_as at the address given by the CURRENT STACK POINTER (that is what
the source does: get_at_as(self.stack_pointer)), and advance exec_pointer by
w. The stray extra from_be call of the source is applied to a Result value
and cannot compile; the value carried here is the single big-endian read
performed by get_at_as. -/
def Machine.pop_arg (m : Machine) (w : Nat) : Except MemoryErr Nat × Machine :=
  (m.get_at_as w m.stack_pointer, { m with exec_pointer := m.exec_pointer + (w : Int) })

/-- Machine::pop_arg_addr from src/src/lib.rs: pop_arg at type i64, then
stackaddr of the signed result. -/
def Machine.pop_arg_addr (m : Machine) : Except MemoryErr Nat × Machine :=
  match m.pop_arg 8 with
  | (.error e, m1) => (.error e, m1)
  | (.ok raw, m1) => (m1.stackaddr (toSigned 8 raw), m1)

/-- Machine::pop_as from src/src/lib.rs: read w bytes at the relative
address -w (that is, at stack_pointer - w) and decrement stack_pointer
by w. -/
def Machine.pop_as (m : Machine) (w : Nat) : Except MemoryErr Nat × Machine :=
  (m.get_at_as w (-(w : Int)), { m with stack_pointer := m.stack_pointer - (w : Int) })

/-- Machine::push from src/src/lib.rs (the two-argument push at lines
310-314): setmem of the value AT ADDRESS 0 (that is what the source does:
setmem(0, thing), and the Result of the write is dropped), then advance
stack_pointer by w; the function always returns Ok, so it is modelled as
returning the machine. -/
def Machine.push (m : Machine) (w : Nat) (v : Nat) : Machine :=
  let m1 := match m.setmem w 0 v with
    | .ok m2 => m2
    | .error _ => m
  { m1 with stack_pointer := m1.stack_pointer + (w : Int) }

/-- Machine::throw from src/src/lib.rs: set errcode to the thrown byte; when
the sbm pair is not (0, 0), rewind stack_pointer to sbm.0 + 16 and
exec_pointer to sbm.1 and continue (no error); otherwise fail the invocation
with UncaughtThrow. The source writes errcode before testing sbm; since the
test does not read errcode the two updates commute and are written as one
record update per branch. The source spells the uncaught return as
InvokeErr::UncaughtThrow without the payload the enum declaration of
src/src/error.rs requires; the only byte in scope is the thrown code, passed
here. -/
def Machine.throw (m : Machine) (code : Nat) : Machine × Option InvokeErr :=
  if m.sbm.1 ≠ 0 ∨ m.sbm.2 ≠ 0 then
    ({ m with errcode := code
              stack_pointer := m.sbm.1 + 16
              exec_pointer := m.sbm.2 }, none)
  else
    ({ m with errcode := code }, some (.UncaughtThrow code))

/-- A UTF-8 continuation byte (0x80 to 0xBF). -/
def isCont (b : Nat) : Bool :=
  decide (128 ≤ b) && decide (b ≤ 191)

/-- UTF-8 validity of a byte list, as checked by str::from_utf8, which is
what CStr::to_str runs on the nul-terminated bytes in the dock and loadfun
arms of src/src/invoke.rs: ASCII bytes stand alone; 0xC2-0xDF open a
two-byte sequence; 0xE0/0xE1-0xEC/0xED/0xEE-0xEF open three-byte sequences
with the standard restricted ranges on the first continuation (excluding
overlong forms and surrogates); 0xF0/0xF1-0xF3/0xF4 open four-byte
sequences likewise (excluding overlong forms and values past U+10FFFF);
every other lead byte is invalid. -/
def validUTF8 : List Nat → Bool
  | [] => true
  | b :: rest =>
    if b < 128 then validUTF8 rest
    else if 194 ≤ b ∧ b ≤ 223 then
      match rest with
      | c1 :: rest2 => isCont c1 && validUTF8 rest2
      | [] => false
    else if b = 224 then
      match rest with
      | c1 :: c2 :: rest2 =>
        (decide (160 ≤ c1) && decide (c1 ≤ 191)) && isCont c2 && validUTF8 rest2
      | _ => false
    else if (225 ≤ b ∧ b ≤ 236) ∨ b = 238 ∨ b = 239 then
      match rest with
      | c1 :: c2 :: rest2 => isCont c1 && isCont c2 && validUTF8 rest2
      | _ => false
    else if b = 237 then
      match rest with
      | c1 :: c2 :: rest2 =>
        (decide (128 ≤ c1) && decide (c1 ≤ 159)) && isCont c2 && validUTF8 rest2
      | _ => false
    else if b = 240 then
      match rest with
      | c1 :: c2 :: c3 :: rest2 =>
        (decide (144 ≤ c1) && decide (c1 ≤ 191)) && isCont c2 && isCont c3 && validUTF8 rest2
      | _ => false
    else if 241 ≤ b ∧ b ≤ 243 then
      match rest with
      | c1 :: c2 :: c3 :: rest2 =>
        isCont c1 && isCont c2 && isCont c3 && validUTF8 rest2
      | _ => false
    else if b = 244 then
      match rest with
      | c1 :: c2 :: c3 :: rest2 =>
        (decide (128 ≤ c1) && decide (c1 ≤ 143)) && isCont c2 && isCont c3 && validUTF8 rest2
      | _ => false
    else false

/-- The ASCII bytes of the name stdabi. -/
def stdabiBytes : List Nat := [115, 116, 100, 97, 98, 105]

/-- The hardcoded table the dock arm of src/src/invoke.rs installs for the
name stdabi: the print and stest callables. -/
def stdabiTable : RabbitTable :=
  ⟨[([112, 114, 105, 110, 116], AbiFn.print), ([115, 116, 101, 115, 116], AbiFn.stest)]⟩

/-- The stdabi branch of the dock arm (opcode 68) of src/src/invoke.rs:
next_rabbit increments rabbit_top and returns it, the new handle is pushed
(with the push of src/src/lib.rs, which writes it at absolute address 0),
and the hardcoded stdabi table is inserted into rabbit_objs under the
handle. -/
def stdabiDockResult (m1 : Machine) : Machine :=
  let rabbit := m1.rabbit_top + 1
  let m2 := { m1 with rabbit_top := rabbit }
  let m3 := m2.push 8 (natOfInt64 rabbit)
  { m3 with rabbit_objs := (rabbit, stdabiTable) :: m3.rabbit_objs }

/-- The dock arm (opcode 68) of src/src/invoke.rs: fetch an address operand
with pop_arg_addr, read the null-terminated bytes from memory at that
address (StringProcessingError when no nul exists), decode them with to_str
(StringProcessingError when they are not valid UTF-8); when the decoded
name is exactly stdabi run the hardcoded stdabi branch; ANY OTHER VALID
NAME FALLS THROUGH with no effect (the source if has no else arm). No
registry of host tables is consulted: none exists in the source. -/
def dockStep (m : Machine) : Except InvokeErr Machine :=
  let r := m.pop_arg_addr
  match r.1 with
  | .error e => .error (.MemErr e)
  | .ok loc =>
    match readCStr (r.2.memory.drop loc) with
    | none => .error .StringProcessingError
    | some name =>
      if validUTF8 name then
        if name = stdabiBytes then .ok (stdabiDockResult r.2) else .ok r.2
      else .error .StringProcessingError

/-- Outcome of one invokevirtual dispatch. guestCall is the outcome the
claim predicts for a word that is not a registered rabbit handle; the
embedded code never produces it. panicMissing models the panic of indexing
rabbit_fns with a missing key. -/
inductive IVOutcome
  | memErr (e : MemoryErr)
  | panicMissing
  | hostCall (f : AbiFn)
  | guestCall (addr : Int)
  deriving DecidableEq

/-- The invokevirtual arm (opcode 67) of src/src/invoke.rs: fetch the
pointer operand with pop_arg, read an i64 word at it with get_at_as, then
UNCONDITIONALLY index rabbit_fns with the word: a registered handle invokes
the host callable, a missing key panics. There is no branch that treats the
word as a guest code offset. -/
def invokevirtualStep (m : Machine) : IVOutcome :=
  let r := m.pop_arg 8
  match r.1 with
  | .error e => .memErr e
  | .ok raw =>
    match r.2.get_at_as 8 (toSigned 8 raw) with
    | .error e => .memErr e
    | .ok wv =>
      match lookupA r.2.rabbit_fns (toSigned 8 wv) with
      | some f => .hostCall f
      | none => .panicMissing

/-- The opcode classes of the interpreter match in src/src/invoke.rs,
widths recorded in bytes. -/
inductive Dispatch
  | pushv (w : Nat)
  | swap (w : Nat)
  | pop (w : Nat)
  | movv (w : Nat)
  | movm (w : Nat)
  | movr (w : Nat)
  | add
  | addv
  | sub
  | subv
  | mul
  | mulv
  | div
  | divv
  | cmplt (w : Nat)
  | cmpgt (w : Nat)
  | cmplte (w : Nat)
  | cmpgte (w : Nat)
  | notOp
  | orOp
  | andOp
  | xorOp
  | branch
  | call
  | ret
  | invokevirtual
  | dock
  | loadfun
  | exitLoop
  | badInstruction
  deriving DecidableEq

/-- The opcode dispatch of Machine::invoke in src/src/invoke.rs, arm by arm:
0-3 pushv, 4-7 swap, 8-11 pop, 12-15 movv, 16-19 movm, 20-23 movr, 24-31 the
register arithmetic arms, 40-55 the comparison families, 56-59 the logical
arms, 64-69 flow control and host binding, 70 the loop break (exit), and
every other byte the catch-all BadInstruction arm. -/
def opcodeDispatch (op : Nat) : Dispatch :=
  match op with
  | 0 => .pushv 8
  | 1 => .pushv 4
  | 2 => .pushv 2
  | 3 => .pushv 1
  | 4 => .swap 8
  | 5 => .swap 4
  | 6 => .swap 2
  | 7 => .swap 1
  | 8 => .pop 8
  | 9 => .pop 4
  | 10 => .pop 2
  | 11 => .pop 1
  | 12 => .movv 8
  | 13 => .movv 4
  | 14 => .movv 2
  | 15 => .movv 1
  | 16 => .movm 8
  | 17 => .movm 4
  | 18 => .movm 2
  | 19 => .movm 1
  | 20 => .movr 8
  | 21 => .movr 4
  | 22 => .movr 2
  | 23 => .movr 1
  | 24 => .add
  | 25 => .addv
  | 26 => .sub
  | 27 => .subv
  | 28 => .mul
  | 29 => .mulv
  | 30 => .div
  | 31 => .divv
  | 40 => .cmplt 8
  | 41 => .cmplt 4
  | 42 => .cmplt 2
  | 43 => .cmplt 1
  | 44 => .cmpgt 8
  | 45 => .cmpgt 4
  | 46 => .cmpgt 2
  | 47 => .cmpgt 1
  | 48 => .cmplte 8
  | 49 => .cmplte 4
  | 50 => .cmplte 2
  | 51 => .cmplte 1
  | 52 => .cmpgte 8
  | 53 => .cmpgte 4
  | 54 => .cmpgte 2
  | 55 => .cmpgte 1
  | 56 => .notOp
  | 57 => .orOp
  | 58 => .andOp
  | 59 => .xorOp
  | 64 => .branch
  | 65 => .call
  | 66 => .ret
  | 67 => .invokevirtual
  | 68 => .dock
  | 69 => .loadfun
  | 70 => .exitLoop
  | _ => .badInstruction

/-- The shared body of the naive_u64 impls for u8, u16, u32 (and the signed
versions) in src/src/numerical.rs: an eight-byte buffer of zeroes receives
byte i of the big-endian representation at position i + 7 - W, that is, the
W bytes are written as one block starting at offset 7 - W. -/
def naiveU64Narrow (w : Nat) (v : Nat) : Nat :=
  beDecode (writeBytes (List.replicate 8 0) (7 - w) (beBytes w v))

/-- from_naive_u64 in src/src/numerical.rs: decode the last W bytes of the
big-endian 64-bit pattern. -/
def fromNaiveU64 (w : Nat) (x : Nat) : Nat :=
  beDecode ((beBytes 8 x).drop (8 - w))

/-- The effective address of the spec for claim C5, in the words of the
spec: if addr is negative, replace it with stack_pointer + addr. -/
def specTranslateEff (m : Machine) (addr : Int) : Int :=
  if addr < 0 then m.stack_pointer + addr else addr

/-- A registry of host tables keyed by name bytes. -/
abbrev HostRegistry := List (List Nat × RabbitTable)

/-- Modelled from the spec: the register(name, table) method of the public
API (spec section 6), by which host tables are registered before invoke. No
such method exists anywhere in src/; it is modelled here only so that the
claim about dock consulting registered tables can be stated. -/
def register (reg : HostRegistry) (name : List Nat) (tbl : RabbitTable) : HostRegistry :=
  (name, tbl) :: reg

/-- Concrete machine for claim C2: capacity 32, stack_pointer 8, memory
zeroed. -/
def cm2 : Machine := { Machine.new 32 with stack_pointer := 8 }

/-- Concrete machine for claim C3: capacity 32, exec_pointer 0 with byte 42
at address 0, stack_pointer 16 with byte 99 at address 16. -/
def cm3 : Machine :=
  { Machine.new 32 with
    memory := writeBytes (writeBytes (List.replicate 32 0) 0 [42]) 16 [99]
    stack_pointer := 16 }

/-- Concrete machine for the claim C4 witness: sbm = (5, 9). -/
def cm4 : Machine := { Machine.new 32 with sbm := (5, 9) }

/-- Concrete machine for claim C7: the pointer operand 40 sits at the
stack pointer (where pop_arg reads), the word at address 40 is 0, and no
rabbit function is registered. -/
def cm7 : Machine :=
  { Machine.new 64 with
    stack_pointer := 16
    memory := writeBytes (List.replicate 64 0) 16 (beBytes 8 40) }

/-- Concrete machine for the claim C7 witness: the word at address 40 is 57
and handle 57 is registered to the stest callable. -/
def cm7w : Machine :=
  { Machine.new 64 with
    stack_pointer := 16
    memory := writeBytes (writeBytes (List.replicate 64 0) 16 (beBytes 8 40)) 40 (beBytes 8 57)
    rabbit_fns := [(57, AbiFn.stest)] }

/-- The ASCII bytes of the name mytab. -/
def mytabBytes : List Nat := [109, 121, 116, 97, 98]

/-- A host table for the claim C8 counterexample. -/
def demoTable : RabbitTable := ⟨[]⟩

/-- Concrete machine for claim C8: the address operand 32 sits at the stack
pointer, and memory at 32 holds the null-terminated name mytab. -/
def cm8 : Machine :=
  { Machine.new 64 with
    stack_pointer := 16
    memory := writeBytes (writeBytes (List.replicate 64 0) 16 (beBytes 8 32)) 32
      [109, 121, 116, 97, 98, 0] }

/-- Concrete machine for the claim C8 witness: memory at 32 holds the
null-terminated name stdabi. -/
def cm8w : Machine :=
  { Machine.new 64 with
    stack_pointer := 16
    memory := writeBytes (writeBytes (List.replicate 64 0) 16 (beBytes 8 32)) 32
      [115, 116, 100, 97, 98, 105, 0] }

/-- Image for claim C9: a 12-byte static section and no text, exceeding
capacity - 8 = 8 of a 16-byte machine. -/
def img12 : Image :=
  { function_table := [], static_table := [], static_section := List.replicate 12 7,
    text_section := [] }

/-- Image for claim C9: 9 bytes of static section, exceeding the full
capacity of an 8-byte machine. -/
def img9 : Image :=
  { function_table := [], static_table := [], static_section := List.replicate 9 1,
    text_section := [] }

/-- Image for the claim C10 witness: a function table holding only main. -/
def imgMainOnly : Image :=
  { function_table := [(("main" : String), (0 : Int))], static_table := [],
    static_section := [], text_section := [] }

/-- C1. The claim says exit is opcode 73 and that a text section of exit
with operand 0 makes invoke return Ok(0). In src/src/invoke.rs opcode 73
falls into the catch-all BadInstruction arm; the instruction that ends the
loop is opcode 70, which reads no operand (the arm only breaks, and the
final expression returns a valueless Ok, while the exit_value_test of
src/src/lib.rs expects Ok(1234) and the opcode list documented in
src/src/lib.rs assigns exit the number 73). -/
theorem c1_exit_opcode73_is_bad_instruction :
    opcodeDispatch 73 = Dispatch.badInstruction ∧ opcodeDispatch 70 = Dispatch.exitLoop := by
  decide

/-- C2. The claim says push writes the value big-endian at
memory[stack_pointer ..] and that push then pop returns the value whenever
both succeed. On the concrete machine cm2 (stack_pointer 8, zeroed memory)
push of the byte 5 succeeds, writes the 5 at absolute address 0 instead of
at address 8, advances stack_pointer to 9, and the following pop succeeds
and returns the stale byte 0 rather than 5. -/
theorem c2_push_then_pop_loses_value :
    ((cm2.push 1 5).pop_as 1).1 = Except.ok 0 ∧
    (0 : Nat) ≠ 5 ∧
    (cm2.push 1 5).memory.take 1 = [5] ∧
    ((cm2.push 1 5).memory.drop 8).take 1 = [0] ∧
    (cm2.push 1 5).stack_pointer = 9 := by
  decide

/-- C3. The claim says fetch_arg reads its bytes from memory at
exec_pointer. On the concrete machine cm3 (exec_pointer 0 holding byte 42,
stack_pointer 16 holding byte 99) pop_arg returns 99, the byte at
stack_pointer, while advancing exec_pointer by the width as claimed. -/
theorem c3_pop_arg_reads_at_stack_pointer :
    (cm3.pop_arg 1).1 = Except.ok 99 ∧
    (cm3.pop_arg 1).2.exec_pointer = 1 ∧
    cm3.memory.take 1 = [42] ∧
    (99 : Nat) ≠ 42 := by
  decide

/-- C4. throw sets errcode to the thrown byte; when sbm differs from (0, 0)
it rewinds stack_pointer to sbm.1 + 16 and exec_pointer to sbm.2 and
execution continues (no error); when sbm equals (0, 0) the invocation fails
with UncaughtThrow carrying the thrown code. -/
theorem c4_throw_semantics (m : Machine) (c : Nat) :
    ((m.throw c).1.errcode = c) ∧
    (m.sbm ≠ (0, 0) →
      m.throw c =
        ({ m with errcode := c, stack_pointer := m.sbm.1 + 16, exec_pointer := m.sbm.2 },
          none)) ∧
    (m.sbm = (0, 0) →
      m.throw c = ({ m with errcode := c }, some (InvokeErr.UncaughtThrow c))) := by
  by_cases hc : m.sbm.1 ≠ 0 ∨ m.sbm.2 ≠ 0
  · refine ⟨by simp [Machine.throw, hc], fun _ => by simp [Machine.throw, hc], fun h => ?_⟩
    exfalso
    rcases hc with h1 | h2
    · exact h1 (by rw [h])
    · exact h2 (by rw [h])
  · push_neg at hc
    have hs : m.sbm = ((0 : Int), (0 : Int)) := Prod.ext_iff.mpr ⟨hc.1, hc.2⟩
    refine ⟨by simp [Machine.throw, hc.1, hc.2], fun h => absurd hs h, fun _ => ?_⟩
    simp [Machine.throw, hc.1, hc.2]

/-- Witness for C4: on the machine cm4 with sbm = (5, 9), throw 3 sets
errcode to 3, rewinds stack_pointer to 21 and exec_pointer to 9, and
produces no error. -/
theorem c4_throw_semantics_witness :
    cm4.throw 3 = ({ cm4 with errcode := 3, stack_pointer := 21, exec_pointer := 9 }, none) := by
  have h := (c4_throw_semantics cm4 3).2.1 (by decide)
  exact h.trans (by decide)

/-- C5. Address translation first replaces a negative address with
stack_pointer + addr; it returns SegmentationFault exactly when the
effective address is below 0 or at least end, and otherwise returns the
effective address as a non-negative index. -/
theorem c5_stackaddr_translation (m : Machine) (addr : Int) :
    ((m.stackaddr addr = Except.error MemoryErr.SegmentationFault) ↔
      (specTranslateEff m addr < 0 ∨ m.end_ ≤ specTranslateEff m addr)) ∧
    (∀ i : Nat, m.stackaddr addr = Except.ok i →
      ((i : Int) = specTranslateEff m addr ∧ 0 ≤ specTranslateEff m addr ∧
        specTranslateEff m addr < m.end_)) := by
  have heff : (if addr < 0 then addr + m.stack_pointer else addr) = specTranslateEff m addr := by
    unfold specTranslateEff
    split <;> omega
  simp only [Machine.stackaddr, heff]
  by_cases hcond : specTranslateEff m addr < 0 ∨ m.end_ ≤ specTranslateEff m addr
  · rw [if_pos hcond]
    exact ⟨iff_of_true rfl hcond, fun i hi => by cases hi⟩
  · rw [if_neg hcond]
    refine ⟨iff_of_false (by simp) hcond, fun i hi => ?_⟩
    push_neg at hcond
    have hi2 : i = (specTranslateEff m addr).toNat := (Except.ok.inj hi).symm
    subst hi2
    exact ⟨Int.toNat_of_nonneg hcond.1, hcond.1, hcond.2⟩

/-- Witness for C5: on a fresh 32-byte machine the address -40 translates to
the effective address -40 and faults, while the address 5 is accepted, with
0 ≤ 5 < end. -/
theorem c5_stackaddr_translation_witness :
    ((Machine.new 32).stackaddr (-40) = Except.error MemoryErr.SegmentationFault) ∧
    ((5 : Int) = specTranslateEff (Machine.new 32) 5 ∧
      0 ≤ specTranslateEff (Machine.new 32) 5 ∧
      specTranslateEff (Machine.new 32) 5 < (Machine.new 32).end_) :=
  ⟨(c5_stackaddr_translation (Machine.new 32) (-40)).1.mpr (by decide),
    (c5_stackaddr_translation (Machine.new 32) 5).2 5 (by decide)⟩

/-- C6. The claim says naive_u64 right-aligns the W bytes and that
from_naive_u64 inverts it bit-exactly. The source writes the block at offset
7 - W instead of 8 - W: for the byte 1 at width 1 the widening yields 256
(the byte lands one position left of right-aligned), and narrowing back
yields 0, not 1; at width 4 the round trip of 1 yields 256. -/
theorem c6_naive_u64_misaligned :
    naiveU64Narrow 1 1 = 256 ∧
    fromNaiveU64 1 (naiveU64Narrow 1 1) = 0 ∧
    (0 : Nat) ≠ 1 ∧
    fromNaiveU64 4 (naiveU64Narrow 4 1) = 256 ∧
    (256 : Nat) ≠ 1 := by
  decide

/-- C7 counterexample. On the concrete machine cm7 the L-word read via the
invokevirtual arm is 0, which is not registered in rabbit_fns; the claim
says the word is then treated as a guest code offset and called, but the
dispatch panics on the missing key and performs no call. -/
theorem c7_unregistered_word_panics :
    invokevirtualStep cm7 = IVOutcome.panicMissing ∧
    IVOutcome.panicMissing ≠ IVOutcome.guestCall 0 := by
  decide

/-- C7 (amended). invokevirtual reads an L-word from memory at the fetched
pointer; when the word is registered in rabbit_fns the host callable is
invoked, and otherwise the unchecked rabbit_fns index panics: the word is
never treated as a guest code offset and no call is ever performed. -/
theorem c7_invokevirtual_dispatch (m : Machine) (raw wv : Nat)
    (h1 : (m.pop_arg 8).1 = Except.ok raw)
    (h2 : (m.pop_arg 8).2.get_at_as 8 (toSigned 8 raw) = Except.ok wv) :
    (∀ f, lookupA (m.pop_arg 8).2.rabbit_fns (toSigned 8 wv) = some f →
      invokevirtualStep m = IVOutcome.hostCall f) ∧
    (lookupA (m.pop_arg 8).2.rabbit_fns (toSigned 8 wv) = none →
      invokevirtualStep m = IVOutcome.panicMissing) ∧
    (∀ a, invokevirtualStep m ≠ IVOutcome.guestCall a) := by
  refine ⟨fun f hf => ?_, fun hn => ?_, fun a => ?_⟩
  · simp only [invokevirtualStep, h1, h2, hf]
  · simp only [invokevirtualStep, h1, h2, hn]
  · cases hl : lookupA (m.pop_arg 8).2.rabbit_fns (toSigned 8 wv) <;>
      simp only [invokevirtualStep, h1, h2, hl] <;> intro hbad <;> cases hbad

/-- Witness for C7: on the machine cm7w the word 57 is registered to the
stest callable, and the dispatch invokes it. -/
theorem c7_invokevirtual_dispatch_witness :
    invokevirtualStep cm7w = IVOutcome.hostCall AbiFn.stest :=
  (c7_invokevirtual_dispatch cm7w 40 57 (by decide) (by decide)).1 AbiFn.stest (by decide)

/-- C8 counterexample. Even with a table registered under the name mytab in
the spec-modelled registry, executing the dock arm on the concrete machine
cm8 (whose memory holds the null-terminated name mytab) changes nothing but
the exec_pointer advance of the operand fetch: no table is looked up, no
handle is allocated, and nothing is pushed. -/
theorem c8_dock_ignores_registered_table :
    lookupA (register [] mytabBytes demoTable) mytabBytes = some demoTable ∧
    dockStep cm8 = Except.ok { cm8 with exec_pointer := 8 } ∧
    ({ cm8 with exec_pointer := (8 : Int) }).stack_pointer = cm8.stack_pointer ∧
    ({ cm8 with exec_pointer := (8 : Int) }).rabbit_top = cm8.rabbit_top := by
  decide

/-- C8 (amended). dock fetches an 8-byte address operand (with the argument
fetch, which leaves stack_pointer unchanged) and reads the null-terminated
bytes from memory at that address; a name that is not valid UTF-8 aborts
the invocation with StringProcessingError; when the name is exactly stdabi
it allocates a fresh rabbit handle, records the built-in stdabi table under
it, and pushes the handle; any other valid name leaves the machine
unchanged beyond the operand fetch. No registry of pre-registered host
tables is consulted and no register method exists. -/
theorem c8_dock_semantics (m : Machine) (loc : Nat) (name : List Nat)
    (h1 : (m.pop_arg_addr).1 = Except.ok loc)
    (h2 : readCStr ((m.pop_arg_addr).2.memory.drop loc) = some name) :
    ((m.pop_arg_addr).2.stack_pointer = m.stack_pointer) ∧
    (validUTF8 name = false → dockStep m = Except.error InvokeErr.StringProcessingError) ∧
    (validUTF8 name = true → name ≠ stdabiBytes → dockStep m = Except.ok (m.pop_arg_addr).2) ∧
    (name = stdabiBytes → dockStep m = Except.ok (stdabiDockResult (m.pop_arg_addr).2)) := by
  have hv : validUTF8 stdabiBytes = true := by decide
  refine ⟨?_, fun hbad => ?_, fun hok hne => ?_, fun he => ?_⟩
  · cases hg : m.get_at_as 8 m.stack_pointer <;>
      simp [Machine.pop_arg_addr, Machine.pop_arg, hg]
  · simp [dockStep, h1, h2, hbad]
  · simp [dockStep, h1, h2, hok, hne]
  · subst he
    simp [dockStep, h1, h2, hv]

/-- Witness for C8: on the machine cm8w, whose memory holds the name stdabi,
the dock arm runs the stdabi branch. -/
theorem c8_dock_semantics_witness :
    dockStep cm8w = Except.ok (stdabiDockResult ((cm8w.pop_arg_addr).2)) :=
  ((c8_dock_semantics cm8w 32 stdabiBytes (by decide) (by decide)).2.2.2) rfl

/-- C9. The claim says mount fails with out-of-memory when the sections
exceed capacity - 8. The source copy loop only panics when the sections
exceed the FULL capacity and returns no error in any case: the 12-byte image
exceeds capacity - 8 = 8 of a 16-byte machine yet mounts successfully, and
the 9-byte image on an 8-byte machine panics (none) rather than returning
OutOfMemory. -/
theorem c9_mount_oversized_image_not_oom :
    img12.static_section.length + img12.text_section.length > 16 - 8 ∧
    ((Machine.new 16).mount img12).isSome = true ∧
    (Machine.new 8).mount img9 = none := by
  decide

/-- C10. For every symbol name missing from the function table of an image,
Image::lookup does not return an offset: the unwrap panics, modelled as
none. -/
theorem c10_lookup_missing_symbol_panics (img : Image) (s : String)
    (h : lookupA img.function_table s = none) :
    img.lookup s = none := by
  simp [Image.lookup, h]

/-- Witness for C10: the image whose table holds only main panics when
asked for an absent symbol. -/
theorem c10_lookup_missing_symbol_panics_witness :
    lookupA imgMainOnly.function_table ("absent") = none ∧
    imgMainOnly.lookup ("absent") = none :=
  ⟨by decide, c10_lookup_missing_symbol_panics imgMainOnly ("absent") (by decide)⟩

end AnyVM
